import Mathlib

/-!
# Verification of the Vocuro `MicRecorder` streaming-transcription pipeline

This file gives a shallow embedding of the client-side pipeline in
`Vocuro-UI/src/components/MicRecorder.jsx` (the evolved, session-based
variant): the chunk accumulator (`audioChunks` / `createCompleteAudioFile`),
the dispatch queue (`chunkQueue` / `isProcessing` / `sendChunkToBackend` and
its completion-time drain), the session starter (`startNewSession`), and the
transcript assembly done on each transcription reply.  Audio bytes are
modelled as `List Nat`; a payload (a `Blob` built from a list of chunk
blobs) is the concatenation of its chunks' bytes.  The asynchronous
behaviour is modelled as a single-threaded event system: segment arrival
(`MediaRecorder.ondataavailable`), reply arrival for the in-flight request
(the code after `await fetch` up to and including the `finally` block), the
100 ms `setTimeout` drain callback scheduled by that `finally` block, and
recorder stop (`MediaRecorder.onstop`).
-/

namespace Vocuro

/-- Raw audio bytes of one captured segment, or of one combined payload. -/
abbrev Bytes := List Nat

/-- Mutable state of the `MicRecorder` component: the React refs and state
hooks, plus observation logs (`inFlight`, `sentLog`, `startRequests`) that
record which network requests exist.  `pendingDrains` counts `setTimeout`
drain callbacks that have been scheduled by a completed request's `finally`
block but have not yet fired. -/
structure RecState where
  transcript : String
  audioChunks : List Bytes
  chunkQueue : List Bytes
  isProcessing : Bool
  inFlight : List Bytes
  sentLog : List Bytes
  chunkCounter : Nat
  chunkIndex : Nat
  pendingDrains : Nat
  sessionStarting : Bool
  currentSession : Option String
  startRequests : Nat
  deriving Repr, DecidableEq

/-- The component's initial state: every ref empty or false, no session. -/
def initState : RecState :=
  { transcript := ""
    audioChunks := []
    chunkQueue := []
    isProcessing := false
    inFlight := []
    sentLog := []
    chunkCounter := 0
    chunkIndex := 0
    pendingDrains := 0
    sessionStarting := false
    currentSession := none
    startRequests := 0 }

/-- JavaScript `String.prototype.trim`: strip whitespace from both ends. -/
def jsTrim (s : String) : String :=
  String.mk (((s.data.dropWhile Char.isWhitespace).reverse.dropWhile
    Char.isWhitespace).reverse)

/-- Transcript update performed on a successful reply carrying `text`
(`if (result.text && result.text.trim()) { const newText = result.text.trim();
setTranscript(prev => prev ? prev + ' ' + newText : newText); }`). -/
def onResult (prev text : String) : String :=
  if jsTrim text = "" then prev
  else if prev = "" then jsTrim text
  else prev ++ " " ++ jsTrim text

/-- `createCompleteAudioFile`: `null` when no chunks are stored, otherwise
one `Blob` combining all stored chunks, whose bytes are their
concatenation. -/
def createCompleteAudioFile (chunks : List Bytes) : Option Bytes :=
  if chunks.isEmpty then none else some chunks.flatten

/-- The synchronous prefix of `sendChunkToBackend(audioBlob)`: bail out if a
request is already being processed, otherwise mark processing, bump the
chunk counter and issue the `fetch` to `/transcribe` (recorded in `inFlight`
and `sentLog`).  Everything after the `await` is modelled by
`completeStep`. -/
def sendChunkToBackend (st : RecState) (p : Bytes) : RecState :=
  if st.isProcessing then st
  else
    { st with
      isProcessing := true
      chunkCounter := st.chunkCounter + 1
      inFlight := st.inFlight ++ [p]
      sentLog := st.sentLog ++ [p] }

/-- Arrival of the reply for the in-flight `/transcribe` request: the code
after `await fetch` in `sendChunkToBackend`.  `res = some text` is a
successful reply carrying `text`; `res = none` is a thrown error (non-ok
status or network failure), which skips the transcript update.  The
`finally` block clears `isProcessing` and schedules one drain callback via
`setTimeout`. -/
def completeStep (st : RecState) (res : Option String) : RecState :=
  match st.inFlight with
  | [] => st
  | _ :: rest =>
    { st with
      transcript :=
        match res with
        | some text => onResult st.transcript text
        | none => st.transcript
      inFlight := rest
      isProcessing := false
      pendingDrains := st.pendingDrains + 1 }

/-- Firing of one scheduled `setTimeout` drain callback:
`if (chunkQueue.current.length > 0 && !isProcessing.current) {
const nextChunk = chunkQueue.current.shift(); sendChunkToBackend(nextChunk); }`. -/
def drainStep (st : RecState) : RecState :=
  if st.pendingDrains = 0 then st
  else
    match st.chunkQueue with
    | [] => { st with pendingDrains := st.pendingDrains - 1 }
    | c :: rest =>
      if st.isProcessing then { st with pendingDrains := st.pendingDrains - 1 }
      else
        sendChunkToBackend
          { st with pendingDrains := st.pendingDrains - 1, chunkQueue := rest } c

/-- `mediaRecorder.ondataavailable`: bump `chunkIndex`; if the segment's
size exceeds 1000 bytes, store it in `audioChunks`, build the complete file,
push it onto `chunkQueue`, and (when not processing) shift the queue's front
and send it; otherwise skip the segment. -/
def dataStep (st : RecState) (b : Bytes) : RecState :=
  if 1000 < b.length then
    match createCompleteAudioFile (st.audioChunks ++ [b]) with
    | none =>
      { st with chunkIndex := st.chunkIndex + 1
                audioChunks := st.audioChunks ++ [b] }
    | some f =>
      match st.chunkQueue ++ [f] with
      | [] =>
        { st with chunkIndex := st.chunkIndex + 1
                  audioChunks := st.audioChunks ++ [b]
                  chunkQueue := st.chunkQueue ++ [f] }
      | c :: rest =>
        if st.isProcessing then
          { st with chunkIndex := st.chunkIndex + 1
                    audioChunks := st.audioChunks ++ [b]
                    chunkQueue := c :: rest }
        else
          sendChunkToBackend
            { st with chunkIndex := st.chunkIndex + 1
                      audioChunks := st.audioChunks ++ [b]
                      chunkQueue := rest } c
  else { st with chunkIndex := st.chunkIndex + 1 }

/-- `mediaRecorder.onstop`: build the final complete file and, when it
exists and exceeds 1000 bytes, hand it to `sendChunkToBackend`. -/
def stopStep (st : RecState) : RecState :=
  match createCompleteAudioFile st.audioChunks with
  | none => st
  | some f => if 1000 < f.length then sendChunkToBackend st f else st

/-- Events of one recording session, as delivered by the browser's single
event loop: a captured segment, the reply (or error) ending the in-flight
request, a scheduled drain timeout firing, and recorder stop. -/
inductive Ev where
  | data (b : Bytes)
  | complete (res : Option String)
  | drain
  | stop
  deriving Repr, DecidableEq

/-- One event-loop step. -/
def step (st : RecState) : Ev → RecState
  | Ev.data b => dataStep st b
  | Ev.complete res => completeStep st res
  | Ev.drain => drainStep st
  | Ev.stop => stopStep st

/-- Run a list of events from a given state. -/
def runFrom (st : RecState) (evs : List Ev) : RecState :=
  evs.foldl step st

/-- Run a list of events from the component's initial state. -/
def run (evs : List Ev) : RecState :=
  runFrom initState evs

/-- The synchronous prefix of `startNewSession`: under the
`sessionStarting` re-entrant guard the call returns `currentSession` at once
(`none` result); otherwise it sets the guard and issues the
`/start_session` request (counted in `startRequests`), suspending at the
`await`. -/
def startPhaseA (st : RecState) : Option RecState :=
  if st.sessionStarting then none
  else some { st with
    sessionStarting := true
    startRequests := st.startRequests + 1 }

/-- The resumption of `startNewSession` once the `/start_session` reply
arrives: on success (`resp = some sid`) store the session id, clear the
transcript, zero the chunk counter and drop the stored audio chunks, then
return the id; on failure return `null`.  Either way the `finally` block
clears the guard. -/
def startPhaseB (st : RecState) (resp : Option String) :
    RecState × Option String :=
  match resp with
  | some sid =>
    ({ st with
        currentSession := some sid
        transcript := ""
        chunkCounter := 0
        audioChunks := []
        sessionStarting := false }, some sid)
  | none => ({ st with sessionStarting := false }, none)

/-- `startNewSession` run to completion with reply `resp`, when no other
call interleaves: guard check, request, resumption. -/
def startNewSession (st : RecState) (resp : Option String) :
    RecState × Option String :=
  match startPhaseA st with
  | none => (st, st.currentSession)
  | some st1 => startPhaseB st1 resp

/-- Modelled from the spec: the milestone tracking lives in the backend
(`Vocuro-Backend/speech_to_text.py`, referenced by the Dockerfile's `CMD`
but absent from `src/`); the client only relays the reply's `milestone`
flag.  Spec §4.4: the assembler "recomputes cumulative character count; if
it crosses the milestone threshold for the first time this session, raises
the milestone signal exactly once", with the threshold fixed at 5000
characters (§3). -/
structure MilestoneState where
  cumLen : Nat
  milestoneFired : Bool
  deriving Repr, DecidableEq

/-- Modelled from the spec: the fixed milestone threshold of 5000
cumulative transcript characters (§3, `TranscriptState`). -/
def milestoneThreshold : Nat := 5000

/-- Modelled from the spec: processing of one recognized-text reply by the
milestone tracker.  Empty or whitespace-only text is a no-op (§4.4);
otherwise the cumulative character count grows, and the milestone signal is
raised (second component `true`) exactly when the count has reached the
threshold and the signal has not been raised before in this session. -/
def milestoneStep (ms : MilestoneState) (text : String) :
    MilestoneState × Bool :=
  if jsTrim text = "" then (ms, false)
  else
    let cum := ms.cumLen + (jsTrim text).length
    if milestoneThreshold ≤ cum ∧ ms.milestoneFired = false then
      ({ cumLen := cum, milestoneFired := true }, true)
    else ({ ms with cumLen := cum }, false)

/-- Run the milestone tracker over a session's sequence of replies,
returning the final state and the number of times the signal was raised. -/
def milestoneRun (ms : MilestoneState) : List String → MilestoneState × Nat
  | [] => (ms, 0)
  | t :: ts =>
    let x := milestoneStep ms t
    let y := milestoneRun x.1 ts
    (y.1, (if x.2 then 1 else 0) + y.2)

/-- A fresh session's milestone state: zero characters, signal unraised. -/
def milestoneInit : MilestoneState :=
  { cumLen := 0, milestoneFired := false }

/-- A concrete above-threshold segment (1001 bytes of value 1). -/
def segA : Bytes := List.replicate 1001 1

/-- A concrete above-threshold segment (1001 bytes of value 2). -/
def segB : Bytes := List.replicate 1001 2

/-- A concrete above-threshold segment (1001 bytes of value 3). -/
def segC : Bytes := List.replicate 1001 3

/-- A payload is well-formed for a chunk sequence when it is the
concatenation of a nonempty prefix of that sequence. -/
def GoodPayload (chunks : List Bytes) (p : Bytes) : Prop :=
  ∃ pre, pre ≠ [] ∧ pre <+: chunks ∧ p = pre.flatten

/-- The pipeline invariant: the processing flag tracks the in-flight
request, at most one request is in flight, every accumulated chunk exceeds
the 1000-byte threshold, and every payload anywhere in the pipeline (queued,
in flight, or already sent) is the concatenation of a nonempty prefix of
the accumulated chunks. -/
structure Inv (st : RecState) : Prop where
  proc_iff : st.isProcessing = true ↔ st.inFlight ≠ []
  flight_le : st.inFlight.length ≤ 1
  chunks_big : ∀ c ∈ st.audioChunks, 1000 < c.length
  payloads : ∀ p, p ∈ st.chunkQueue ∨ p ∈ st.inFlight ∨ p ∈ st.sentLog →
    GoodPayload st.audioChunks p

lemma inv_init : Inv initState := by
  refine ⟨?_, ?_, ?_, ?_⟩ <;> simp [initState, GoodPayload]

lemma sendChunkToBackend_audioChunks (st : RecState) (p : Bytes) :
    (sendChunkToBackend st p).audioChunks = st.audioChunks := by
  unfold sendChunkToBackend
  split <;> rfl

lemma inv_send (st : RecState) (p : Bytes) (h : Inv st)
    (hp : GoodPayload st.audioChunks p) : Inv (sendChunkToBackend st p) := by
  by_cases hproc : st.isProcessing = true
  · simpa [sendChunkToBackend, hproc] using h
  · have hfl : st.inFlight = [] := by
      by_contra hne
      exact hproc (h.proc_iff.mpr hne)
    have hsend : sendChunkToBackend st p =
        { st with
          isProcessing := true
          chunkCounter := st.chunkCounter + 1
          inFlight := st.inFlight ++ [p]
          sentLog := st.sentLog ++ [p] } := by
      simp [sendChunkToBackend, hproc]
    rw [hsend]
    refine ⟨by simp [hfl], by simp [hfl], h.chunks_big, ?_⟩
    intro q hq
    simp only [List.mem_append, List.mem_singleton, hfl, List.not_mem_nil,
      false_or] at hq
    have : GoodPayload st.audioChunks q := by
      rcases hq with hq | hq | hq | hq
      · exact h.payloads q (Or.inl hq)
      · exact hq ▸ hp
      · exact h.payloads q (Or.inr (Or.inr hq))
      · exact hq ▸ hp
    exact this

lemma goodPayload_extend {chunks : List Bytes} {p : Bytes} (b : Bytes)
    (h : GoodPayload chunks p) : GoodPayload (chunks ++ [b]) p := by
  obtain ⟨pre, hne, hpre, hflat⟩ := h
  exact ⟨pre, hne, hpre.trans (List.prefix_append chunks [b]), hflat⟩

lemma inv_complete (st : RecState) (res : Option String) (h : Inv st) :
    Inv (completeStep st res) := by
  rcases hfl : st.inFlight with _ | ⟨x, rest⟩
  · simpa [completeStep, hfl] using h
  · have hrest : rest = [] := by
      have := h.flight_le
      rw [hfl] at this
      simpa using this
    subst hrest
    have hcs : completeStep st res =
        { st with
          transcript :=
            match res with
            | some text => onResult st.transcript text
            | none => st.transcript
          inFlight := []
          isProcessing := false
          pendingDrains := st.pendingDrains + 1 } := by
      simp [completeStep, hfl]
    rw [hcs]
    refine ⟨by simp, by simp, h.chunks_big, ?_⟩
    intro q hq
    simp only [List.not_mem_nil, false_or] at hq
    exact h.payloads q (hq.elim Or.inl fun hs => Or.inr (Or.inr hs))

lemma inv_of (st st' : RecState) (h : Inv st)
    (h1 : st'.isProcessing = st.isProcessing)
    (h2 : st'.inFlight = st.inFlight)
    (h3 : st'.audioChunks = st.audioChunks)
    (h4 : ∀ p, p ∈ st'.chunkQueue → p ∈ st.chunkQueue)
    (h5 : st'.sentLog = st.sentLog) : Inv st' := by
  refine ⟨by rw [h1, h2]; exact h.proc_iff, by rw [h2]; exact h.flight_le,
    by rw [h3]; exact h.chunks_big, ?_⟩
  intro q hq
  rw [h3]
  refine h.payloads q ?_
  rcases hq with hq | hq | hq
  · exact Or.inl (h4 q hq)
  · exact Or.inr (Or.inl (h2 ▸ hq))
  · exact Or.inr (Or.inr (h5 ▸ hq))

lemma inv_drain (st : RecState) (h : Inv st) : Inv (drainStep st) := by
  unfold drainStep
  split
  · exact h
  · split
    · exact inv_of st _ h rfl rfl rfl (fun p hp => hp) rfl
    · next c rest hq =>
      split
      · exact inv_of st _ h rfl rfl rfl (fun p hp => hp) rfl
      · refine inv_send _ c
          (inv_of st _ h rfl rfl rfl
            (fun p hp => by
              rw [hq]
              exact List.mem_cons_of_mem c hp) rfl) ?_
        exact h.payloads c (Or.inl (by rw [hq]; exact List.mem_cons_self c rest))

lemma createCompleteAudioFile_eq_some {chunks : List Bytes} {f : Bytes}
    (h : createCompleteAudioFile chunks = some f) :
    chunks ≠ [] ∧ f = chunks.flatten := by
  unfold createCompleteAudioFile at h
  split at h
  · cases h
  · next hne =>
    refine ⟨by simpa [List.isEmpty_iff] using hne, ?_⟩
    exact (Option.some.injEq _ _ ▸ h).symm

lemma inv_data (st : RecState) (b : Bytes) (h : Inv st) :
    Inv (dataStep st b) := by
  unfold dataStep
  split
  · next hb =>
    have hbig : ∀ cc ∈ st.audioChunks ++ [b], 1000 < cc.length := by
      intro cc hcc
      rcases List.mem_append.mp hcc with hcc | hcc
      · exact h.chunks_big cc hcc
      · rw [List.mem_singleton] at hcc
        exact hcc ▸ hb
    split
    · refine ⟨h.proc_iff, h.flight_le, hbig, ?_⟩
      intro q hq
      exact goodPayload_extend b (h.payloads q hq)
    · next f hcf =>
      have hf : GoodPayload (st.audioChunks ++ [b]) f := by
        obtain ⟨hne, hfe⟩ := createCompleteAudioFile_eq_some hcf
        exact ⟨st.audioChunks ++ [b], by simp, List.prefix_refl _, hfe⟩
      have hmem : ∀ q, q ∈ st.chunkQueue ++ [f] →
          GoodPayload (st.audioChunks ++ [b]) q := by
        intro q hq2
        rcases List.mem_append.mp hq2 with h2 | h2
        · exact goodPayload_extend b (h.payloads q (Or.inl h2))
        · rw [List.mem_singleton] at h2
          exact h2 ▸ hf
      split
      · next habs => exact absurd habs (by simp)
      · next c rest hq =>
        split
        · refine ⟨h.proc_iff, h.flight_le, hbig, ?_⟩
          intro q hq2
          rcases hq2 with hq2 | hq2
          · exact hmem q (hq ▸ hq2)
          · exact goodPayload_extend b
              (h.payloads q (hq2.elim (fun hm => Or.inr (Or.inl hm))
                fun hm => Or.inr (Or.inr hm)))
        · refine inv_send _ c
            ⟨h.proc_iff, h.flight_le, hbig, ?_⟩ ?_
          · intro q hq2
            rcases hq2 with hq2 | hq2
            · exact hmem q (hq ▸ List.mem_cons_of_mem c hq2)
            · exact goodPayload_extend b
                (h.payloads q (hq2.elim (fun hm => Or.inr (Or.inl hm))
                  fun hm => Or.inr (Or.inr hm)))
          · exact hmem c (hq ▸ List.mem_cons_self c rest)
  · exact ⟨h.proc_iff, h.flight_le, h.chunks_big, h.payloads⟩

lemma inv_stop (st : RecState) (h : Inv st) : Inv (stopStep st) := by
  unfold stopStep
  rcases hch : st.audioChunks with _ | ⟨c0, cs⟩
  · simp only [createCompleteAudioFile, List.isEmpty_nil, if_true]
    exact h
  · have hcf : createCompleteAudioFile (c0 :: cs) =
        some (c0 :: cs).flatten := by
      simp [createCompleteAudioFile]
    rw [hcf]
    show Inv (if 1000 < (c0 :: cs).flatten.length then
      sendChunkToBackend st (c0 :: cs).flatten else st)
    by_cases hsz : 1000 < (c0 :: cs).flatten.length
    · rw [if_pos hsz]
      exact inv_send st _ h ⟨c0 :: cs, by simp, by rw [hch], rfl⟩
    · rw [if_neg hsz]
      exact h

lemma inv_step (st : RecState) (e : Ev) (h : Inv st) : Inv (step st e) := by
  cases e with
  | data b => exact inv_data st b h
  | complete res => exact inv_complete st res h
  | drain => exact inv_drain st h
  | stop => exact inv_stop st h

lemma inv_runFrom (st : RecState) (evs : List Ev) (h : Inv st) :
    Inv (runFrom st evs) := by
  induction evs generalizing st with
  | nil => exact h
  | cons e evs ih => exact ih (step st e) (inv_step st e h)

lemma inv_run (evs : List Ev) : Inv (run evs) :=
  inv_runFrom initState evs inv_init

lemma run_append_single (evs : List Ev) (e : Ev) :
    run (evs ++ [e]) = step (run evs) e := by
  simp [run, runFrom, List.foldl_append]

lemma runFrom_append (st : RecState) (evs evs2 : List Ev) :
    runFrom st (evs ++ evs2) = runFrom (runFrom st evs) evs2 := by
  simp [runFrom, List.foldl_append]

lemma step_audioChunks_mono (st : RecState) (e : Ev) :
    st.audioChunks <+: (step st e).audioChunks := by
  cases e with
  | data b =>
    show st.audioChunks <+: (dataStep st b).audioChunks
    unfold dataStep
    split
    · split
      · exact List.prefix_append _ _
      · split
        · exact List.prefix_append _ _
        · split
          · exact List.prefix_append _ _
          · rw [sendChunkToBackend_audioChunks]
            exact List.prefix_append _ _
    · exact List.prefix_refl _
  | complete res =>
    show st.audioChunks <+: (completeStep st res).audioChunks
    unfold completeStep
    split
    · exact List.prefix_refl _
    · exact List.prefix_refl _
  | drain =>
    show st.audioChunks <+: (drainStep st).audioChunks
    unfold drainStep
    split
    · exact List.prefix_refl _
    · split
      · exact List.prefix_refl _
      · split
        · exact List.prefix_refl _
        · rw [sendChunkToBackend_audioChunks]
  | stop =>
    show st.audioChunks <+: (stopStep st).audioChunks
    unfold stopStep
    split
    · exact List.prefix_refl _
    · split
      · rw [sendChunkToBackend_audioChunks]
      · exact List.prefix_refl _

lemma runFrom_audioChunks_mono (st : RecState) (evs : List Ev) :
    st.audioChunks <+: (runFrom st evs).audioChunks := by
  induction evs generalizing st with
  | nil => exact List.prefix_refl _
  | cons e evs ih =>
    exact (step_audioChunks_mono st e).trans (ih (step st e))

lemma dataStep_audioChunks_of_big (st : RecState) (b : Bytes)
    (hb : 1000 < b.length) :
    (dataStep st b).audioChunks = st.audioChunks ++ [b] := by
  unfold dataStep
  rw [if_pos hb]
  split
  · rfl
  · split
    · rfl
    · split
      · rfl
      · rw [sendChunkToBackend_audioChunks]

lemma infix_flatten_of_mem {b : Bytes} {chunks : List Bytes}
    (h : b ∈ chunks) : b <:+: chunks.flatten := by
  obtain ⟨s, t, rfl⟩ := List.append_of_mem h
  refine ⟨s.flatten, t.flatten, ?_⟩
  simp [List.flatten_append]

lemma segA_len : 1000 < segA.length := by
  show 1000 < (List.replicate 1001 1).length
  rw [List.length_replicate]
  decide

lemma segB_len : 1000 < segB.length := by
  show 1000 < (List.replicate 1001 2).length
  rw [List.length_replicate]
  decide

lemma segC_len : 1000 < segC.length := by
  show 1000 < (List.replicate 1001 3).length
  rw [List.length_replicate]
  decide

lemma burst_trace (a b c : Bytes) (ha : 1000 < a.length)
    (hb : 1000 < b.length) (hc : 1000 < c.length) :
    (run [Ev.data a, Ev.data b, Ev.data c]).chunkQueue =
      [a ++ b, a ++ b ++ c] ∧
    (run [Ev.data a, Ev.data b, Ev.data c, Ev.complete none, Ev.drain,
      Ev.complete none, Ev.drain]).sentLog = [a, a ++ b, a ++ b ++ c] := by
  constructor <;>
    simp [run, runFrom, step, dataStep, completeStep, drainStep,
      sendChunkToBackend, createCompleteAudioFile, initState, ha, hb, hc]

lemma stop_reorder_trace (a b c : Bytes) (ha : 1000 < a.length)
    (hb : 1000 < b.length) (hc : 1000 < c.length) :
    (run [Ev.data a, Ev.data b, Ev.data c, Ev.complete none, Ev.stop,
      Ev.drain, Ev.complete none, Ev.drain]).sentLog =
      [a, a ++ b ++ c, a ++ b] := by
  have hf : 1000 < a.length + (b.length + c.length) := by omega
  simp [run, runFrom, step, dataStep, completeStep, drainStep, stopStep,
    sendChunkToBackend, createCompleteAudioFile, initState, ha, hb, hc, hf]

lemma single_data_inflight (a : Bytes) (ha : 1000 < a.length) :
    (run [Ev.data a]).isProcessing = true ∧
    step (run [Ev.data a]) Ev.stop = run [Ev.data a] ∧
    (run [Ev.data a, Ev.stop, Ev.complete none, Ev.drain]).sentLog = [a] := by
  refine ⟨?_, ?_, ?_⟩ <;>
    simp [run, runFrom, step, dataStep, completeStep, drainStep, stopStep,
      sendChunkToBackend, createCompleteAudioFile, initState, ha]

lemma start_leak_trace (a b c : Bytes) (sid : String) (ha : 1000 < a.length)
    (hb : 1000 < b.length) (hc : 1000 < c.length) :
    (startNewSession (run [Ev.data a, Ev.data b, Ev.data c]) (some sid)).1.chunkQueue =
      [a ++ b, a ++ b ++ c] ∧
    (startNewSession (run [Ev.data a, Ev.data b, Ev.data c]) (some sid)).1.isProcessing =
      true := by
  constructor <;>
    simp [run, runFrom, step, dataStep, sendChunkToBackend,
      createCompleteAudioFile, initState, startNewSession, startPhaseA,
      startPhaseB, ha, hb, hc]

lemma all_of_dropWhile_all {p : Char → Bool} {l : List Char}
    (h : ∀ c ∈ l.dropWhile p, p c) : ∀ c ∈ l, p c := by
  intro c hc
  rw [← List.takeWhile_append_dropWhile p l] at hc
  rcases List.mem_append.mp hc with hc | hc
  · exact List.mem_takeWhile_imp hc
  · exact h c hc

lemma jsTrim_eq_empty_iff (s : String) :
    jsTrim s = "" ↔ ∀ c ∈ s.data, c.isWhitespace := by
  unfold jsTrim
  constructor
  · intro h
    have hl : ((s.data.dropWhile Char.isWhitespace).reverse.dropWhile
        Char.isWhitespace).reverse = [] := by
      have := congrArg String.data h
      simpa using this
    rw [List.reverse_eq_nil_iff, List.dropWhile_eq_nil_iff] at hl
    refine all_of_dropWhile_all fun c hc => ?_
    exact hl c (List.mem_reverse.mpr hc)
  · intro h
    have h1 : s.data.dropWhile Char.isWhitespace = [] :=
      List.dropWhile_eq_nil_iff.mpr fun c hc => h c hc
    rw [h1]
    rfl

lemma milestoneStep_eq (ms : MilestoneState) (t : String) :
    milestoneStep ms t =
      if jsTrim t = "" then (ms, false)
      else if milestoneThreshold ≤ ms.cumLen + (jsTrim t).length ∧
          ms.milestoneFired = false then
        ({ cumLen := ms.cumLen + (jsTrim t).length,
           milestoneFired := true }, true)
      else ({ ms with cumLen := ms.cumLen + (jsTrim t).length }, false) :=
  rfl

lemma milestone_stays_fired (texts : List String) (ms : MilestoneState)
    (h : ms.milestoneFired = true) : (milestoneRun ms texts).2 = 0 := by
  induction texts generalizing ms with
  | nil => rfl
  | cons t ts ih =>
    show (if (milestoneStep ms t).2 then 1 else 0) +
      (milestoneRun (milestoneStep ms t).1 ts).2 = 0
    by_cases h1 : jsTrim t = ""
    · rw [milestoneStep_eq, if_pos h1]
      simpa using ih ms h
    · simpa [milestoneStep_eq, h1, h] using
        ih { ms with cumLen := ms.cumLen + (jsTrim t).length } h

lemma milestone_count_le1 (texts : List String) (ms : MilestoneState) :
    (milestoneRun ms texts).2 ≤ 1 := by
  induction texts generalizing ms with
  | nil => simp [milestoneRun]
  | cons t ts ih =>
    show (if (milestoneStep ms t).2 then 1 else 0) +
      (milestoneRun (milestoneStep ms t).1 ts).2 ≤ 1
    cases hs : (milestoneStep ms t).2 with
    | false => simpa [hs] using ih (milestoneStep ms t).1
    | true =>
      have hf : (milestoneStep ms t).1.milestoneFired = true := by
        rw [milestoneStep_eq] at hs ⊢
        by_cases h1 : jsTrim t = ""
        · rw [if_pos h1] at hs
          cases hs
        · rw [if_neg h1] at hs ⊢
          by_cases h2 : milestoneThreshold ≤ ms.cumLen + (jsTrim t).length ∧
              ms.milestoneFired = false
          · rw [if_pos h2]
          · rw [if_neg h2] at hs
            cases hs
      rw [milestone_stays_fired ts _ hf]
      simp

/-- C1 (counterexample): with three above-threshold segments arriving while
the first payload is in flight, the pending queue reaches depth 2 (the
claimed cap is 1), three network calls happen in total (the claim says
exactly two), and the second payload `P2 = segA ++ segB` is sent (the claim
says P2 is never sent). -/
theorem dispatch_queue_coalescing_cex :
    (run [Ev.data segA, Ev.data segB, Ev.data segC]).chunkQueue.length = 2 ∧
    (run [Ev.data segA, Ev.data segB, Ev.data segC, Ev.complete none,
      Ev.drain, Ev.complete none, Ev.drain]).sentLog.length = 3 ∧
    segA ++ segB ∈ (run [Ev.data segA, Ev.data segB, Ev.data segC,
      Ev.complete none, Ev.drain, Ev.complete none, Ev.drain]).sentLog := by
  obtain ⟨h1, h2⟩ := burst_trace segA segB segC segA_len segB_len segC_len
  refine ⟨by rw [h1]; rfl, by rw [h2]; rfl, ?_⟩
  rw [h2]
  exact List.mem_cons_of_mem _ (List.mem_cons_self _ _)

/-- C1 (amended): the pending queue is an unbounded FIFO with no
last-writer-wins replacement.  Payloads produced while a request is in
flight are appended (here the queue holds both `a ++ b` and
`a ++ b ++ c`), and after each completion the oldest queued payload is
dispatched next, so submitting P1, P2, P3 in rapid succession while P1 is
in flight yields three network calls: P1, then P2, then P3, in order. -/
theorem dispatch_queue_unbounded_fifo (a b c : Bytes) (ha : 1000 < a.length)
    (hb : 1000 < b.length) (hc : 1000 < c.length) :
    (run [Ev.data a, Ev.data b, Ev.data c]).chunkQueue =
      [a ++ b, a ++ b ++ c] ∧
    (run [Ev.data a, Ev.data b, Ev.data c, Ev.complete none, Ev.drain,
      Ev.complete none, Ev.drain]).sentLog = [a, a ++ b, a ++ b ++ c] :=
  burst_trace a b c ha hb hc

/-- Witness for C1 (amended) at the concrete segments
`segA`, `segB`, `segC`. -/
theorem dispatch_queue_unbounded_fifo_witness :
    (run [Ev.data segA, Ev.data segB, Ev.data segC]).chunkQueue =
      [segA ++ segB, segA ++ segB ++ segC] ∧
    (run [Ev.data segA, Ev.data segB, Ev.data segC, Ev.complete none,
      Ev.drain, Ev.complete none, Ev.drain]).sentLog =
      [segA, segA ++ segB, segA ++ segB ++ segC] :=
  dispatch_queue_unbounded_fifo segA segB segC segA_len segB_len segC_len

/-- C2 (counterexample): sends can be reordered relative to submission.
After `a`, `b`, `c` arrive (with `a ++ b` and `a ++ b ++ c` queued while
`a` is in flight) and the in-flight request completes, a stop event
dispatches the final file `segA ++ segB ++ segC` directly, bypassing the
queue; the earlier-submitted queued payload `segA ++ segB` is then sent
after it, so the send order is P1, P3, P2. -/
theorem send_reorder_cex :
    (run [Ev.data segA, Ev.data segB, Ev.data segC, Ev.complete none,
      Ev.stop, Ev.drain, Ev.complete none, Ev.drain]).sentLog =
      [segA, segA ++ segB ++ segC, segA ++ segB] :=
  stop_reorder_trace segA segB segC segA_len segB_len segC_len

/-- C2 (amended): for every sequence of segment arrivals, completions,
drain timeouts and stop events, at most one transcription request is in
flight at any instant.  (The ordering half of the original claim fails:
the stop-flush bypasses the pending queue, see the counterexample.) -/
theorem single_flight_invariant (evs : List Ev) :
    (run evs).inFlight.length ≤ 1 :=
  (inv_run evs).flight_le

/-- C3 (counterexample): stopping while a request is in flight drops the
final flush entirely.  After one above-threshold segment whose dispatch is
still in flight, the stop event leaves the state unchanged (no dispatch),
and even after the in-flight request completes and the drain fires, the
only network call of the whole session is the original one — the stop
triggered zero final dispatches, not exactly one. -/
theorem stop_flush_dropped_cex :
    (run [Ev.data segA]).isProcessing = true ∧
    step (run [Ev.data segA]) Ev.stop = run [Ev.data segA] ∧
    (run [Ev.data segA, Ev.stop, Ev.complete none, Ev.drain]).sentLog =
      [segA] :=
  single_data_inflight segA segA_len

/-- C3 (amended): when no request is in flight at the moment the recorder
stops and the accumulated audio exceeds 1000 bytes, the stop handler
triggers exactly one final dispatch whose payload is the concatenation of
all accumulated audio of the session.  (If a request is in flight, the
final payload is silently dropped by `sendChunkToBackend`'s guard.) -/
theorem stop_final_flush (st : RecState) (hproc : st.isProcessing = false)
    (hsz : 1000 < st.audioChunks.flatten.length) :
    (step st Ev.stop).sentLog = st.sentLog ++ [st.audioChunks.flatten] ∧
    (step st Ev.stop).inFlight = st.inFlight ++ [st.audioChunks.flatten] ∧
    (step st Ev.stop).isProcessing = true := by
  have hne : ¬st.audioChunks.isEmpty = true := by
    intro hempty
    rw [List.isEmpty_iff] at hempty
    rw [hempty] at hsz
    simp at hsz
  have hstop : stopStep st = sendChunkToBackend st st.audioChunks.flatten := by
    unfold stopStep createCompleteAudioFile
    rw [if_neg hne]
    show (if 1000 < st.audioChunks.flatten.length then
      sendChunkToBackend st st.audioChunks.flatten else st) = _
    rw [if_pos hsz]
  have hstep : step st Ev.stop =
      { st with
        isProcessing := true
        chunkCounter := st.chunkCounter + 1
        inFlight := st.inFlight ++ [st.audioChunks.flatten]
        sentLog := st.sentLog ++ [st.audioChunks.flatten] } := by
    show stopStep st = _
    rw [hstop]
    simp [sendChunkToBackend, hproc]
  rw [hstep]
  exact ⟨rfl, rfl, rfl⟩

/-- Witness for C3 (amended): a state holding one above-threshold segment
with no request in flight; stopping dispatches the accumulated audio. -/
theorem stop_final_flush_witness :
    (step { initState with audioChunks := [segA] } Ev.stop).sentLog =
      [segA] ∧
    (step { initState with audioChunks := [segA] } Ev.stop).isProcessing =
      true := by
  have h := stop_final_flush { initState with audioChunks := [segA] } rfl
    (by simpa using segA_len)
  exact ⟨by simpa [initState] using h.1, h.2.2⟩

/-- C4: the accumulator's next payload extends the previous one by exactly
the new segment's bytes: if `createCompleteAudioFile` produces payload `p`
from the accepted segments `segs`, then after appending one more segment
`s` it produces exactly `p ++ s`, of which `p` is a byte-identical
prefix. -/
theorem payload_prefix_extension (segs : List Bytes) (s p : Bytes)
    (h : createCompleteAudioFile segs = some p) :
    createCompleteAudioFile (segs ++ [s]) = some (p ++ s) ∧
    p <+: p ++ s := by
  obtain ⟨hne, rfl⟩ := createCompleteAudioFile_eq_some h
  constructor
  · unfold createCompleteAudioFile
    rw [if_neg (by simp)]
    simp [List.flatten_append]
  · exact List.prefix_append _ _

/-- Witness for C4 at concrete segments. -/
theorem payload_prefix_extension_witness :
    createCompleteAudioFile [[1, 2], [3]] = some [1, 2, 3] ∧
    ([1, 2] : Bytes) <+: [1, 2, 3] := by
  have h := payload_prefix_extension [[1, 2]] [3] [1, 2] rfl
  simpa using h

/-- C5 (counterexample): a successful `startNewSession` does not reset the
dispatch-queue state.  Starting from a reachable state with two stale
queued payloads and a request in flight, the new session still sees the
old pending queue and the in-flight flag still set, so payloads from the
previous session can leak into the new one. -/
theorem start_session_leak_cex :
    (startNewSession (run [Ev.data segA, Ev.data segB, Ev.data segC])
      (some "s2")).1.chunkQueue = [segA ++ segB, segA ++ segB ++ segC] ∧
    (startNewSession (run [Ev.data segA, Ev.data segB, Ev.data segC])
      (some "s2")).1.isProcessing = true :=
  start_leak_trace segA segB segC "s2" segA_len segB_len segC_len

/-- C5 (amended): a successful `startNewSession` resets the transcript,
the accumulated segment sequence and the chunk counter and stores the new
session identifier, but leaves the dispatch queue state — the pending
`chunkQueue` and the `isProcessing` flag — untouched. -/
theorem start_session_partial_reset (st : RecState) (sid : String)
    (h : st.sessionStarting = false) :
    startNewSession st (some sid) =
      ({ st with
          currentSession := some sid
          transcript := ""
          chunkCounter := 0
          audioChunks := []
          startRequests := st.startRequests + 1 }, some sid) ∧
    (startNewSession st (some sid)).1.chunkQueue = st.chunkQueue ∧
    (startNewSession st (some sid)).1.isProcessing = st.isProcessing := by
  have hfull : startNewSession st (some sid) =
      ({ st with
          currentSession := some sid
          transcript := ""
          chunkCounter := 0
          audioChunks := []
          startRequests := st.startRequests + 1 }, some sid) := by
    simp [startNewSession, startPhaseA, startPhaseB, h]
  exact ⟨hfull, by rw [hfull], by rw [hfull]⟩

/-- Witness for C5 (amended) at the initial state. -/
theorem start_session_partial_reset_witness :
    startNewSession initState (some "abc") =
      ({ initState with currentSession := some "abc", startRequests := 1 },
        some "abc") := by
  have h := (start_session_partial_reset initState "abc" rfl).1
  simpa [initState] using h

/-- C6: within one session the milestone signal is raised at most once:
over every sequence of recognized-text replies — including sequences whose
cumulative length crosses the 5000-character threshold many times — the
number of times the milestone fires is at most one. -/
theorem milestone_at_most_once (texts : List String) :
    (milestoneRun milestoneInit texts).2 ≤ 1 :=
  milestone_count_le1 texts milestoneInit

/-- C7: if `startNewSession` is entered a second time while the first call
is suspended at its network request, the second call is stopped by the
`sessionStarting` guard: it returns the old `currentSession` immediately,
changes nothing, and issues no second request (`startRequests` stays at
one more than before the first call); the first call then resumes and
returns the single new session identifier. -/
theorem start_session_reentrant_guard (st : RecState) (sid : String)
    (resp2 : Option String) (h : st.sessionStarting = false) :
    startPhaseA st = some { st with
      sessionStarting := true
      startRequests := st.startRequests + 1 } ∧
    startNewSession { st with
      sessionStarting := true
      startRequests := st.startRequests + 1 } resp2 =
      ({ st with
          sessionStarting := true
          startRequests := st.startRequests + 1 }, st.currentSession) ∧
    startPhaseB { st with
      sessionStarting := true
      startRequests := st.startRequests + 1 } (some sid) =
      ({ st with
          currentSession := some sid
          transcript := ""
          chunkCounter := 0
          audioChunks := []
          startRequests := st.startRequests + 1 }, some sid) := by
  refine ⟨by simp [startPhaseA, h], ?_, ?_⟩
  · simp [startNewSession, startPhaseA]
  · simp [startPhaseB, h]

/-- Witness for C7 at the initial state: the first call's request is
issued once, the interleaved second call is a no-op returning `none`, and
the first call resumes with the new identifier. -/
theorem start_session_reentrant_guard_witness :
    startPhaseA initState = some { initState with
      sessionStarting := true
      startRequests := initState.startRequests + 1 } ∧
    startNewSession { initState with
      sessionStarting := true
      startRequests := initState.startRequests + 1 } none =
      ({ initState with
          sessionStarting := true
          startRequests := initState.startRequests + 1 },
        initState.currentSession) ∧
    startPhaseB { initState with
      sessionStarting := true
      startRequests := initState.startRequests + 1 } (some "s1") =
      ({ initState with
          currentSession := some "s1"
          transcript := ""
          chunkCounter := 0
          audioChunks := []
          startRequests := initState.startRequests + 1 }, some "s1") :=
  start_session_reentrant_guard initState "s1" none rfl

/-- C8: transcript assembly: an empty or whitespace-only reply leaves the
transcript unchanged; otherwise the trimmed text is appended, with exactly
one separating space when the existing transcript is non-empty; in
particular feeding "" then "hello" yields "hello", and "hello" then
"world" yields "hello world". -/
theorem transcript_join_rule (prev text : String) :
    onResult prev text =
      (if ∀ c ∈ text.data, c.isWhitespace then prev
       else if prev = "" then jsTrim text
       else prev ++ " " ++ jsTrim text) ∧
    onResult (onResult "" "") "hello" = "hello" ∧
    onResult (onResult "" "hello") "world" = "hello world" := by
  refine ⟨?_, by decide, by decide⟩
  by_cases h : ∀ c ∈ text.data, c.isWhitespace
  · rw [if_pos h]
    unfold onResult
    rw [if_pos ((jsTrim_eq_empty_iff text).mpr h)]
  · rw [if_neg h]
    unfold onResult
    rw [if_neg fun he => h ((jsTrim_eq_empty_iff text).mp he)]

/-- C9: every dispatched payload is the concatenation of a nonempty prefix
of the accumulated segments, all of which exceed 1000 bytes, so a
below-threshold segment (length ≤ 1000) is discarded — the data event
changes nothing but the chunk index — and never appears in any dispatched
payload; an above-threshold segment is appended to the accumulation, stays
there for the rest of the session, and is a byte-infix of every payload
the accumulator subsequently produces. -/
theorem segment_threshold_filter (evs : List Ev) (b : Bytes) :
    (∀ p ∈ (run evs).sentLog, GoodPayload (run evs).audioChunks p) ∧
    (∀ c ∈ (run evs).audioChunks, 1000 < c.length) ∧
    (b.length ≤ 1000 →
      run (evs ++ [Ev.data b]) =
        { run evs with chunkIndex := (run evs).chunkIndex + 1 }) ∧
    (1000 < b.length →
      (run (evs ++ [Ev.data b])).audioChunks =
        (run evs).audioChunks ++ [b]) ∧
    (∀ evs2, (run evs).audioChunks <+:
      (runFrom (run evs) evs2).audioChunks) ∧
    (∀ (chunks : List Bytes) (f : Bytes), b ∈ chunks →
      createCompleteAudioFile chunks = some f → b <:+: f) := by
  refine ⟨fun p hp => (inv_run evs).payloads p (Or.inr (Or.inr hp)),
    (inv_run evs).chunks_big, ?_, ?_,
    fun evs2 => runFrom_audioChunks_mono _ evs2, ?_⟩
  · intro hsmall
    rw [run_append_single]
    show dataStep (run evs) b = _
    unfold dataStep
    rw [if_neg (Nat.not_lt.mpr hsmall)]
  · intro hbig
    rw [run_append_single]
    exact dataStep_audioChunks_of_big (run evs) b hbig
  · intro chunks f hb hcf
    obtain ⟨hne, rfl⟩ := createCompleteAudioFile_eq_some hcf
    exact infix_flatten_of_mem hb

/-- Witness for C9: the 1001-byte segment `segA` is appended to the
accumulation, while a 500-byte segment only bumps the chunk index. -/
theorem segment_threshold_filter_witness :
    (run ([] ++ [Ev.data segA])).audioChunks =
      (run []).audioChunks ++ [segA] ∧
    run ([] ++ [Ev.data (List.replicate 500 9)]) =
      { run [] with chunkIndex := (run []).chunkIndex + 1 } :=
  ⟨(segment_threshold_filter [] segA).2.2.2.1 segA_len,
   (segment_threshold_filter [] (List.replicate 500 9)).2.2.1 (by
     rw [List.length_replicate]
     decide)⟩

/-- C10: a payload handed to `sendChunkToBackend` while a request is
already being processed is silently discarded: the state is completely
unchanged — nothing is sent, nothing is queued — and every future run of
the event loop behaves exactly as if the call had never happened, so that
payload is never dispatched by any later step. -/
theorem send_dropped_when_processing (st : RecState) (p : Bytes)
    (h : st.isProcessing = true) :
    sendChunkToBackend st p = st ∧
    (sendChunkToBackend st p).sentLog = st.sentLog ∧
    (sendChunkToBackend st p).chunkQueue = st.chunkQueue ∧
    ∀ evs, runFrom (sendChunkToBackend st p) evs = runFrom st evs := by
  have he : sendChunkToBackend st p = st := by
    simp [sendChunkToBackend, h]
  exact ⟨he, by rw [he], by rw [he], fun evs => by rw [he]⟩

/-- Witness for C10: with a request marked as processing, a submitted
payload leaves the state untouched. -/
theorem send_dropped_when_processing_witness :
    sendChunkToBackend { initState with isProcessing := true } [7] =
      { initState with isProcessing := true } :=
  (send_dropped_when_processing { initState with isProcessing := true }
    [7] rfl).1

end Vocuro
